import Mathlib

/-!
Verification of the qoir-rs core: a shallow embedding of the crate
types (src/types.rs) and of the public encode/decode operations
(src/encode.rs, src/decode.rs).  The opaque C codec engine
(vendor/qoir, compiled by build.rs; not part of the Rust sources) is a
parameter of every operation, except where a claim needs a concrete
engine, in which case one is modelled from the spec.

Bytes are `Nat` values; raw pointers are modelled as `Option` (null =
`none`) or, for a pointer into foreign memory, as the byte-reading
function `Nat → Nat` visible from that pointer.
-/

namespace Qoir

/-- Embeds `PixelFormat` from src/types.rs: closed enumeration with explicit
numeric discriminants. -/
inductive PixelFormat where
  | Invalid
  | BGRX
  | BGRANonPremul
  | BGRAPremul
  | BGR
  | RGBX
  | RGBANonPremul
  | RGBAPremul
  | RGB
deriving DecidableEq, Repr

/-- The numeric discriminant of each `PixelFormat` variant, i.e. the
value of `format as u32` in the Rust code. -/
def PixelFormat.code : PixelFormat → Nat
  | .Invalid => 0x00
  | .BGRX => 0x01
  | .BGRANonPremul => 0x02
  | .BGRAPremul => 0x03
  | .BGR => 0x11
  | .RGBX => 0x21
  | .RGBANonPremul => 0x22
  | .RGBAPremul => 0x23
  | .RGB => 0x31

/-- Embeds `From<qoir_pixel_format> for PixelFormat` (src/types.rs, lines
102-118): the match over the raw `u32` code, with the catch-all arm
yielding `Invalid`. -/
def PixelFormat.fromRawCode (value : Nat) : PixelFormat :=
  match value with
  | 0x00 => .Invalid
  | 0x01 => .BGRX
  | 0x02 => .BGRANonPremul
  | 0x03 => .BGRAPremul
  | 0x11 => .BGR
  | 0x21 => .RGBX
  | 0x22 => .RGBANonPremul
  | 0x23 => .RGBAPremul
  | 0x31 => .RGB
  | _ => .Invalid

/-- Bytes per pixel of each concrete format, as documented on the enum
variants in src/types.rs ("3 bytes per pixel" / "4 bytes per pixel");
spec section 4.1 leaves it undefined for `Invalid`. -/
def bytes_per_pixel : PixelFormat → Nat
  | .BGR => 3
  | .RGB => 3
  | _ => 4

/-- Embeds `qoir_rectangle` / `Rectangle`: low bounds inclusive, high bounds
exclusive. -/
structure Rectangle where
  x0 : Int
  y0 : Int
  x1 : Int
  y1 : Int
deriving DecidableEq, Repr

/-- Embeds `qoir_rectangle::zero()` from src/bindings.rs. -/
def Rectangle.zero : Rectangle := ⟨0, 0, 0, 0⟩

/-- Embeds `Error` from src/types.rs: the closed error variant set. -/
inductive Error where
  | InvalidParameter
  | DecodingFailed (msg : String)
  | EncodingFailed (msg : String)
  | FileNotFound
  | IoError
deriving DecidableEq, Repr

/-- Embeds `Image` from src/types.rs: a borrowed pixel view.  The slice is a
list of bytes. -/
structure Image where
  pixels : List Nat
  width : Nat
  height : Nat
  pixel_format : PixelFormat
  stride_in_bytes : Nat
deriving DecidableEq, Repr

/-- Embeds `DecodeOptions` from src/types.rs. -/
structure DecodeOptions where
  pixel_format : PixelFormat
  src_clip_rect : Option Rectangle
  dst_clip_rect : Option Rectangle
  offset_x : Int
  offset_y : Int
deriving DecidableEq, Repr

/-- Embeds `DecodeOptions::default()` from src/types.rs. -/
def DecodeOptions.default : DecodeOptions :=
  { pixel_format := .RGBANonPremul
    src_clip_rect := none
    dst_clip_rect := none
    offset_x := 0
    offset_y := 0 }

/-- Embeds `EncodeOptions` from src/types.rs.  `lossiness` is a `u8`, so its
value is below 256. -/
structure EncodeOptions where
  cicp_profile : Option (List Nat)
  icc_profile : Option (List Nat)
  exif : Option (List Nat)
  xmp : Option (List Nat)
  lossiness : Nat
  dither : Bool
deriving DecidableEq, Repr

/-- Embeds `EncodeOptions::default()`: all blobs absent, lossless, no dither. -/
def EncodeOptions.default : EncodeOptions :=
  { cicp_profile := none
    icc_profile := none
    exif := none
    xmp := none
    lossiness := 0
    dither := false }

/-- Embeds `qoir_pixel_configuration` (generated bindings; field names as used
by src/decode.rs and src/encode.rs). -/
structure PixelConfiguration where
  pixfmt : Nat
  width_in_pixels : Nat
  height_in_pixels : Nat

/-- Embeds `qoir_pixel_buffer`: a pixel configuration, a stride, and the data
pointer, modelled as the byte-reading function visible from it. -/
structure QPixelBuffer where
  pixcfg : PixelConfiguration
  data : Nat → Nat
  stride_in_bytes : Nat

/-- Embeds `qoir_decode_options` as filled in by `decode_from_memory`
(src/decode.rs, lines 40-49). -/
structure QDecodeOptions where
  pixfmt : Nat
  offset_x : Int
  offset_y : Int
  use_src_clip_rectangle : Bool
  use_dst_clip_rectangle : Bool
  src_clip_rectangle : Rectangle
  dst_clip_rectangle : Rectangle

/-- Embeds `qoir_decode_result` (spec section 6 record; fields as read by
src/decode.rs and src/types.rs).  A nullable pointer-plus-length pair
is an `Option (List Nat)`; `status_message` is `none` exactly when the
C pointer is null; `owned_memory_nonnull` records whether
`owned_memory` is non-null. -/
structure QDecodeResult where
  status_message : Option String
  dst_pixbuf : QPixelBuffer
  metadata_cicp : Option (List Nat)
  metadata_iccp : Option (List Nat)
  metadata_exif : Option (List Nat)
  metadata_xmp : Option (List Nat)
  owned_memory_nonnull : Bool

/-- Embeds `qoir_encode_options` as filled in by `encode_to_memory`
(src/encode.rs, lines 49-73).  Each metadata pointer/length pair from
the Rust `Option<Vec<u8>>` is an `Option (List Nat)` (null pointer and
length 0 when absent). -/
structure QEncodeOptions where
  metadata_cicp : Option (List Nat)
  metadata_iccp : Option (List Nat)
  metadata_exif : Option (List Nat)
  metadata_xmp : Option (List Nat)
  lossiness : Nat
  dither : Bool

/-- Embeds `qoir_encode_result` (spec section 6 record; fields as read by
src/encode.rs and src/types.rs). -/
structure QEncodeResult where
  status_message : Option String
  dst_data : Nat → Nat
  dst_len : Nat
  owned_memory_nonnull : Bool

/-- Result of `qoir_decode_pixel_configuration` as read by
`decode_basic_metadata` (src/decode.rs, lines 170-185): a status
message and the destination pixel configuration. -/
structure QDecodeConfigResult where
  status_message : Option String
  dst_pixcfg : PixelConfiguration

/-- Embeds `std::slice::from_raw_parts(ptr, len)`: the `len` bytes visible
from the pointer, in order. -/
def readBytes (mem : Nat → Nat) (len : Nat) : List Nat :=
  (List.range len).map mem

/-- Embeds `DecodedImage` from src/types.rs, minus the `Arc<DecodedResult>`
handle, whose sharing discipline is modelled separately by
`SharedCell`; `owned_memory_nonnull` records whether the wrapped
result held a live block. -/
structure DecodedImage where
  image : Image
  cic_profile : Option (List Nat)
  icc_profile : Option (List Nat)
  exif : Option (List Nat)
  xmp : Option (List Nat)
  owned_memory_nonnull : Bool
deriving DecidableEq, Repr

/-- Embeds `EncodedBuffer` from src/types.rs, minus the `Arc<EncodedResult>`
handle (see `SharedCell`). -/
structure EncodedBuffer where
  data : List Nat
  owned_memory_nonnull : Bool
deriving DecidableEq, Repr

/-- Embeds `DecodedImage::new` (src/decode.rs, lines 191-269).  The pixel
slice is built with `from_raw_parts(data, width * height *
stride_in_bytes)` — the formula as written in the source, including
the `width` factor.  Each metadata slice is `some` exactly when its
pointer is non-null. -/
def DecodedImage.new (rec : QDecodeResult) : DecodedImage :=
  let pixels := readBytes rec.dst_pixbuf.data
    (rec.dst_pixbuf.pixcfg.width_in_pixels *
      rec.dst_pixbuf.pixcfg.height_in_pixels *
      rec.dst_pixbuf.stride_in_bytes)
  { image :=
      { pixels := pixels
        width := rec.dst_pixbuf.pixcfg.width_in_pixels
        height := rec.dst_pixbuf.pixcfg.height_in_pixels
        pixel_format := PixelFormat.fromRawCode rec.dst_pixbuf.pixcfg.pixfmt
        stride_in_bytes := rec.dst_pixbuf.stride_in_bytes }
    cic_profile := rec.metadata_cicp
    icc_profile := rec.metadata_iccp
    exif := rec.metadata_exif
    xmp := rec.metadata_xmp
    owned_memory_nonnull := rec.owned_memory_nonnull }

/-- Embeds `EncodedBuffer::new` (src/encode.rs, lines 202-212):
`from_raw_parts(dst_ptr, dst_len)`. -/
def EncodedBuffer.new (rec : QEncodeResult) : EncodedBuffer :=
  { data := readBytes rec.dst_data rec.dst_len
    owned_memory_nonnull := rec.owned_memory_nonnull }

/-- The `qoir_decode_options` value built by `decode_from_memory`
(src/decode.rs, lines 40-49) from the safe `DecodeOptions`. -/
def buildQDecodeOptions (options : DecodeOptions) : QDecodeOptions :=
  { pixfmt := options.pixel_format.code
    offset_x := options.offset_x
    offset_y := options.offset_y
    use_src_clip_rectangle := options.src_clip_rect.isSome
    use_dst_clip_rectangle := options.dst_clip_rect.isSome
    src_clip_rectangle := options.src_clip_rect.getD Rectangle.zero
    dst_clip_rectangle := options.dst_clip_rect.getD Rectangle.zero }

/-- The `qoir_encode_options` value built by `encode_to_memory`
(src/encode.rs, lines 49-73).  `lossiness` is cast `u8 as u32`, which
is value-preserving. -/
def buildQEncodeOptions (options : EncodeOptions) : QEncodeOptions :=
  { metadata_cicp := options.cicp_profile
    metadata_iccp := options.icc_profile
    metadata_exif := options.exif
    metadata_xmp := options.xmp
    lossiness := options.lossiness
    dither := options.dither }

/-- The `qoir_pixel_buffer` value built by `encode_to_memory`
(src/encode.rs, lines 75-83) from the caller `Image` value. -/
def buildQPixelBuffer (image : Image) : QPixelBuffer :=
  { stride_in_bytes := image.stride_in_bytes
    data := fun i => image.pixels.getD i 0
    pixcfg :=
      { width_in_pixels := image.width
        height_in_pixels := image.height
        pixfmt := image.pixel_format.code } }

/-- Observable outcome of one `decode_from_memory` call: the returned
value, how many times the engine was invoked, whether the raw result
record was wrapped into the `Arc<DecodedResult>` owner (whose `Drop`
later frees `owned_memory`), and how many `libc::free` calls the
function itself performed before returning. -/
structure DecodeOutcome where
  result : Except Error DecodedImage
  engineCalls : Nat
  ownershipWrapped : Bool
  freesBeforeReturn : Nat

/-- Observable outcome of one `encode_to_memory` call; `engineCalls`
keeps the arguments of each `qoir_encode` invocation in order. -/
structure EncodeOutcome where
  result : Except Error EncodedBuffer
  engineCalls : List (QPixelBuffer × QEncodeOptions)
  ownershipWrapped : Bool
  freesBeforeReturn : Nat

/-- Embeds `decode_from_memory` (src/decode.rs, lines 36-66), parameterized
by the opaque engine `qoir_decode`.  Builds the raw options, invokes
the engine once, returns `Err(DecodingFailed(msg))` when
`status_message` is non-null — dropping the plain result record
without wrapping it, so no `free` runs on that path — and otherwise
wraps the record via `DecodedImage::new`. -/
def decode_from_memoryO (engine : List Nat → QDecodeOptions → QDecodeResult)
    (data : List Nat) (options : DecodeOptions) : DecodeOutcome :=
  let decoded := engine data (buildQDecodeOptions options)
  match decoded.status_message with
  | some msg =>
    { result := .error (.DecodingFailed msg)
      engineCalls := 1
      ownershipWrapped := false
      freesBeforeReturn := 0 }
  | none =>
    { result := .ok (DecodedImage.new decoded)
      engineCalls := 1
      ownershipWrapped := true
      freesBeforeReturn := 0 }

/-- The value returned by `decode_from_memory`. -/
def decode_from_memory (engine : List Nat → QDecodeOptions → QDecodeResult)
    (data : List Nat) (options : DecodeOptions) : Except Error DecodedImage :=
  (decode_from_memoryO engine data options).result

/-- Embeds `encode_to_memory` (src/encode.rs, lines 45-100), parameterized by
the opaque engine `qoir_encode`.  No validation of the image shape is
performed: the raw options and pixel buffer are built and the engine
is invoked directly; `status_message` decides success. -/
def encode_to_memoryO (engine : QPixelBuffer → QEncodeOptions → QEncodeResult)
    (image : Image) (options : EncodeOptions) : EncodeOutcome :=
  let ropts := buildQEncodeOptions options
  let pixBuff := buildQPixelBuffer image
  let result := engine pixBuff ropts
  match result.status_message with
  | some msg =>
    { result := .error (.EncodingFailed msg)
      engineCalls := [(pixBuff, ropts)]
      ownershipWrapped := false
      freesBeforeReturn := 0 }
  | none =>
    { result := .ok (EncodedBuffer.new result)
      engineCalls := [(pixBuff, ropts)]
      ownershipWrapped := true
      freesBeforeReturn := 0 }

/-- The value returned by `encode_to_memory`. -/
def encode_to_memory (engine : QPixelBuffer → QEncodeOptions → QEncodeResult)
    (image : Image) (options : EncodeOptions) : Except Error EncodedBuffer :=
  (encode_to_memoryO engine image options).result

/-- Embeds `encode_to_writer` (src/encode.rs, lines 140-151): encode to
memory, propagate an encoding error, write the bytes, map a write
failure to `IoError` via the `?` operator (returning the error, not
the buffer), else return the buffer. -/
def encode_to_writer (engine : QPixelBuffer → QEncodeOptions → QEncodeResult)
    (image : Image) (options : EncodeOptions)
    (writeAll : List Nat → Except Unit Unit) : Except Error EncodedBuffer :=
  match encode_to_memory engine image options with
  | .error e => .error e
  | .ok encoded_buffer =>
    match writeAll encoded_buffer.data with
    | .error _ => .error .IoError
    | .ok _ => .ok encoded_buffer

/-- Embeds `decode_basic_metadata` (src/decode.rs, lines 170-185),
parameterized by the engine `qoir_decode_pixel_configuration`. -/
def decode_basic_metadata (engine : List Nat → QDecodeConfigResult)
    (data : List Nat) : Except Error (Nat × Nat × PixelFormat) :=
  let decoded := engine data
  match decoded.status_message with
  | some msg => .error (.DecodingFailed msg)
  | none =>
    .ok (decoded.dst_pixcfg.width_in_pixels,
      decoded.dst_pixcfg.height_in_pixels,
      PixelFormat.fromRawCode decoded.dst_pixcfg.pixfmt)

/-- The sharing state of one foreign-allocated block behind an
`Arc<DecodedResult>` / `Arc<EncodedResult>` (src/types.rs).  `bytes`
is the content of the block, which backs every slice handed out; `ownedNonNull`
is whether the `owned_memory` field of the record pointer is non-null; `refcount`
is the `Arc` strong count; `released` becomes true when the inner
`Drop` has run; `freeCount` counts the `libc::free` calls performed on
the block. -/
structure SharedCell where
  bytes : List Nat
  ownedNonNull : Bool
  refcount : Nat
  released : Bool
  freeCount : Nat
deriving DecidableEq, Repr

/-- The cell created by a successful decode/encode: `Arc::new` gives
strong count 1, the block is live and has never been freed. -/
def mkSharedCell (bytes : List Nat) (owned : Bool) : SharedCell :=
  { bytes := bytes
    ownedNonNull := owned
    refcount := 1
    released := false
    freeCount := 0 }

/-- Embeds `Clone` for `DecodedImage`/`EncodedBuffer`: clones the `Arc`,
incrementing the strong count; the block itself is untouched. -/
def cloneShare (c : SharedCell) : SharedCell :=
  { c with refcount := c.refcount + 1 }

/-- Dropping one `DecodedImage`/`EncodedBuffer`: the `Arc` strong
count decrements; when the last share drops, `Drop for DecodedResult`
(src/types.rs, lines 44-52) runs once and calls `libc::free` on
`owned_memory` iff it is non-null. -/
def dropShare (c : SharedCell) : SharedCell :=
  if c.refcount = 1 then
    { c with refcount := 0
             released := true
             freeCount := c.freeCount + (if c.ownedNonNull then 1 else 0) }
  else
    { c with refcount := c.refcount - 1 }

/-- Reading any slice derived from the block (pixels, metadata blobs,
encoded data): defined only while the block has not been released. -/
def readSlice (c : SharedCell) : Option (List Nat) :=
  if c.released then none else some c.bytes

/-- Embeds `n` successive clones. -/
def cloneN : Nat → SharedCell → SharedCell
  | 0, c => c
  | n + 1, c => cloneN n (cloneShare c)

/-- Embeds `n` successive drops. -/
def dropN : Nat → SharedCell → SharedCell
  | 0, c => c
  | n + 1, c => dropN n (dropShare c)

/-- Modelled from the spec: the opaque codec engine (the vendored
qoir C library compiled by build.rs, absent from the Rust sources).
Per spec sections 4.3 and 8, with `lossiness == 0` the engine is an
ideal lossless codec: `run_encode` reads the `height * stride` pixel
bytes from the caller-owned view and produces a compressed stream that
determines them; here the stream is simply the pixel configuration,
the stride and those bytes.  The spec leaves the bitstream layout
unspecified. -/
def specEngineEncode (pb : QPixelBuffer) (_opts : QEncodeOptions) : QEncodeResult :=
  let payload := pb.pixcfg.pixfmt :: pb.pixcfg.width_in_pixels ::
    pb.pixcfg.height_in_pixels :: pb.stride_in_bytes ::
    readBytes pb.data (pb.pixcfg.height_in_pixels * pb.stride_in_bytes)
  { status_message := none
    dst_data := fun i => payload.getD i 0
    dst_len := payload.length
    owned_memory_nonnull := true }

/-- Modelled from the spec: `run_decode` of the same ideal lossless
engine.  For a well-formed stream whose pixel format matches the
requested one, it allocates a fresh block holding exactly the
`height * stride` pixel bytes (memory adjacent to the allocation reads
as 0) and reports the recorded configuration; otherwise it fails with
a non-null status message and no memory attached. -/
def specEngineDecode (data : List Nat) (opts : QDecodeOptions) : QDecodeResult :=
  match data with
  | pixfmt :: w :: h :: stride :: pixels =>
    if pixfmt = opts.pixfmt ∧ pixels.length = h * stride then
      { status_message := none
        dst_pixbuf :=
          { pixcfg :=
              { pixfmt := pixfmt
                width_in_pixels := w
                height_in_pixels := h }
            data := fun i => pixels.getD i 0
            stride_in_bytes := stride }
        metadata_cicp := none
        metadata_iccp := none
        metadata_exif := none
        metadata_xmp := none
        owned_memory_nonnull := true }
    else
      { status_message := some "qoir: unsupported pixel format"
        dst_pixbuf :=
          { pixcfg := { pixfmt := 0, width_in_pixels := 0, height_in_pixels := 0 }
            data := fun _ => 0
            stride_in_bytes := 0 }
        metadata_cicp := none
        metadata_iccp := none
        metadata_exif := none
        metadata_xmp := none
        owned_memory_nonnull := false }
  | _ =>
    { status_message := some "qoir: invalid data"
      dst_pixbuf :=
        { pixcfg := { pixfmt := 0, width_in_pixels := 0, height_in_pixels := 0 }
          data := fun _ => 0
          stride_in_bytes := 0 }
      metadata_cicp := none
      metadata_iccp := none
      metadata_exif := none
      metadata_xmp := none
      owned_memory_nonnull := false }

/-- Encode with the modelled engine, then decode the resulting bytes
with the modelled engine, and project out the decoded pixel slice;
`none` when either step fails. -/
def roundTripPixels (image : Image) (eopts : EncodeOptions)
    (dopts : DecodeOptions) : Option (List Nat) :=
  match encode_to_memory specEngineEncode image eopts with
  | .error _ => none
  | .ok buf =>
    match decode_from_memory specEngineDecode buf.data dopts with
    | .error _ => none
    | .ok dec => some dec.image.pixels

/-- The pixel-slice length of a decode result, when it succeeded. -/
def decodedPixelsLen (r : Except Error DecodedImage) : Option Nat :=
  match r with
  | .ok d => some d.image.pixels.length
  | .error _ => none

/-- The eight raw codes mapped to a concrete format by the `From`
impl; everything else (including 0x00) maps to `Invalid`. -/
def mappedCodes : List Nat := [0x01, 0x02, 0x03, 0x11, 0x21, 0x22, 0x23, 0x31]

lemma fromRawCode_unmapped (c : Nat) (h : c ∉ mappedCodes) :
    PixelFormat.fromRawCode c = .Invalid := by
  unfold PixelFormat.fromRawCode
  split <;> simp_all [mappedCodes]

lemma cloneN_spec : ∀ (n : Nat) (c : SharedCell),
    cloneN n c = { c with refcount := c.refcount + n } := by
  intro n
  induction n with
  | zero => intro c; rfl
  | succ n ih =>
    intro c
    obtain ⟨b, o, r, rel, f⟩ := c
    show cloneN n (cloneShare ⟨b, o, r, rel, f⟩) = _
    rw [ih]
    simp only [cloneShare, SharedCell.mk.injEq, and_true, true_and]
    omega

lemma dropN_live : ∀ (k : Nat) (c : SharedCell), k < c.refcount →
    dropN k c = { c with refcount := c.refcount - k } := by
  intro k
  induction k with
  | zero => intro c _; rfl
  | succ k ih =>
    intro c h
    obtain ⟨b, o, r, rel, f⟩ := c
    have hne : r ≠ 1 := by
      have : k + 1 < r := h
      omega
    have hds : dropShare ⟨b, o, r, rel, f⟩ = ⟨b, o, r - 1, rel, f⟩ := by
      simp [dropShare, hne]
    show dropN k (dropShare ⟨b, o, r, rel, f⟩) = _
    rw [hds, ih ⟨b, o, r - 1, rel, f⟩ (by
      show k < r - 1
      have : k + 1 < r := h
      omega)]
    simp only [SharedCell.mk.injEq, and_true, true_and]
    have : k + 1 < r := h
    omega

lemma dropN_succ : ∀ (k : Nat) (c : SharedCell),
    dropN (k + 1) c = dropShare (dropN k c) := by
  intro k
  induction k with
  | zero => intro c; rfl
  | succ k ih =>
    intro c
    show dropN (k + 1) (dropShare c) = dropShare (dropN (k + 1) c)
    rw [ih (dropShare c)]
    rfl

/-- A 2 by 2 image in the 4-byte RGBA non-premultiplied format with a
tight stride of 8 bytes: 16 pixel bytes in total. -/
def img7 : Image :=
  { pixels := List.range 16
    width := 2
    height := 2
    pixel_format := .RGBANonPremul
    stride_in_bytes := 8 }

/-- An image violating the shape invariant of spec section 3: width 2
in a 4-byte format needs a stride of at least 8, but the stride is 4. -/
def img3 : Image :=
  { pixels := List.range 4
    width := 2
    height := 1
    pixel_format := .RGBANonPremul
    stride_in_bytes := 4 }

/-- A failed engine decode record that nevertheless has memory
attached: non-null status message and non-null `owned_memory`. -/
def failDecodeRecord : QDecodeResult :=
  { status_message := some "qoir: failure"
    dst_pixbuf :=
      { pixcfg := { pixfmt := 0, width_in_pixels := 0, height_in_pixels := 0 }
        data := fun _ => 0
        stride_in_bytes := 0 }
    metadata_cicp := none
    metadata_iccp := none
    metadata_exif := none
    metadata_xmp := none
    owned_memory_nonnull := true }

/-- A failed engine encode record with memory attached. -/
def failEncodeRecord : QEncodeResult :=
  { status_message := some "qoir: failure"
    dst_data := fun _ => 0
    dst_len := 0
    owned_memory_nonnull := true }

instance {e a : Type _} [DecidableEq e] [DecidableEq a] : DecidableEq (Except e a) := fun x y =>
  match x, y with
  | .error u, .error v => decidable_of_iff (u = v) (by simp)
  | .error _, .ok _ => isFalse (by simp)
  | .ok _, .error _ => isFalse (by simp)
  | .ok u, .ok v => decidable_of_iff (u = v) (by simp)

/-- An engine header-parse result that succeeds (null status message)
while reporting the unmapped pixel-format code 0x77. -/
def engine77 : List Nat → QDecodeConfigResult := fun _ =>
  { status_message := none
    dst_pixcfg := { pixfmt := 0x77, width_in_pixels := 5, height_in_pixels := 6 } }

/-- Encode options whose lossiness, 200, lies outside the documented
0 to 7 range but inside the u8 range. -/
def opts200 : EncodeOptions := { EncodeOptions.default with lossiness := 200 }

/-- C1: for a block produced by a successful decode/encode
(`mkSharedCell`, strong count 1) and then cloned `n` times, any `k ≤ n`
drops leave every derived slice readable with unchanged bytes, the
block unreleased and never freed; dropping all `n + 1` shares frees the
foreign block exactly once — never twice, and never while a share is
alive. -/
theorem decoded_share_release_once (bytes : List Nat) (n k : Nat) (hk : k ≤ n) :
    (readSlice (dropN k (cloneN n (mkSharedCell bytes true))) = some bytes ∧
      (dropN k (cloneN n (mkSharedCell bytes true))).freeCount = 0 ∧
      (dropN k (cloneN n (mkSharedCell bytes true))).released = false) ∧
    (dropN (n + 1) (cloneN n (mkSharedCell bytes true))).freeCount = 1 ∧
    (dropN (n + 1) (cloneN n (mkSharedCell bytes true))).released = true := by
  have hcl : cloneN n (mkSharedCell bytes true) = ⟨bytes, true, 1 + n, false, 0⟩ := by
    rw [cloneN_spec]; rfl
  have hpart : ∀ j, j ≤ n → dropN j (cloneN n (mkSharedCell bytes true)) =
      ⟨bytes, true, 1 + n - j, false, 0⟩ := by
    intro j hj
    rw [hcl, dropN_live j _ (by show j < 1 + n; omega)]
  refine ⟨⟨?_, ?_, ?_⟩, ?_, ?_⟩
  · rw [hpart k hk]; rfl
  · rw [hpart k hk]
  · rw [hpart k hk]
  · rw [dropN_succ, hpart n le_rfl, show 1 + n - n = 1 by omega]
    rfl
  · rw [dropN_succ, hpart n le_rfl, show 1 + n - n = 1 by omega]
    rfl

/-- Witness for C1 at one clone: dropping the original leaves the
clone readable and nothing freed; dropping the clone frees once. -/
theorem decoded_share_release_once_witness :
    (readSlice (dropN 1 (cloneN 1 (mkSharedCell [7] true))) = some [7] ∧
      (dropN 1 (cloneN 1 (mkSharedCell [7] true))).freeCount = 0 ∧
      (dropN 1 (cloneN 1 (mkSharedCell [7] true))).released = false) ∧
    (dropN (1 + 1) (cloneN 1 (mkSharedCell [7] true))).freeCount = 1 ∧
    (dropN (1 + 1) (cloneN 1 (mkSharedCell [7] true))).released = true :=
  decoded_share_release_once [7] 1 1 (by decide)

/-- C2: evaluating the decode path at a successful 2 by 2 engine
result with stride 8 shows the pixel slice has length
`width * height * stride = 32`, not `height * stride = 16` as the
claim (and the spec) require — the code computes the overcounting
formula. -/
theorem decoded_pixels_len_overcounts :
    decodedPixelsLen (decode_from_memory specEngineDecode
      ((0x22 : Nat) :: 2 :: 2 :: 8 :: List.range 16) DecodeOptions.default) =
      some (2 * 2 * 8) ∧ (2 * 2 * 8 : Nat) ≠ 2 * 8 := by decide

/-- C3 (as amended): `encode_to_memory` performs no shape validation —
for every image, valid or not, it invokes the codec engine exactly
once, passing the translated view and options, and never returns
`Err(InvalidParameter)`. -/
theorem encode_no_validation
    (engine : QPixelBuffer → QEncodeOptions → QEncodeResult) (image : Image)
    (options : EncodeOptions) :
    (encode_to_memoryO engine image options).engineCalls =
      [(buildQPixelBuffer image, buildQEncodeOptions options)] ∧
    (encode_to_memoryO engine image options).result ≠ .error .InvalidParameter := by
  simp only [encode_to_memoryO]
  cases h : (engine (buildQPixelBuffer image) (buildQEncodeOptions options)).status_message <;>
    simp [h]

/-- Counterexample to C3 as stated: an image whose stride violates the
shape invariant (stride 4 < width 2 times 4 bytes per pixel) is still
handed to the engine, and the result is not `Err(InvalidParameter)`. -/
theorem encode_no_validation_counterexample :
    img3.stride_in_bytes < img3.width * bytes_per_pixel img3.pixel_format ∧
    (encode_to_memoryO specEngineEncode img3 EncodeOptions.default).engineCalls.length = 1 ∧
    (encode_to_memoryO specEngineEncode img3 EncodeOptions.default).result ≠
      Except.error Error.InvalidParameter := by decide

/-- Witness for C3 (amended) at a well-formed image and the modelled
engine. -/
theorem encode_no_validation_witness :
    (encode_to_memoryO specEngineEncode img7 EncodeOptions.default).engineCalls =
      [(buildQPixelBuffer img7, buildQEncodeOptions EncodeOptions.default)] ∧
    (encode_to_memoryO specEngineEncode img7 EncodeOptions.default).result ≠
      .error .InvalidParameter :=
  encode_no_validation specEngineEncode img7 EncodeOptions.default

/-- C4: when the engine record signals failure but has memory attached
(`owned_memory` non-null), both `decode_from_memory` and
`encode_to_memory` return the error with zero `free` calls performed
and without transferring the record to the owning wrapper whose `Drop`
would free it — the partial allocation is leaked, contradicting the
claim that it is released before returning. -/
theorem failure_leaks_owned_memory :
    (decode_from_memoryO (fun _ _ => failDecodeRecord) [0] DecodeOptions.default).result =
      .error (.DecodingFailed "qoir: failure") ∧
    (decode_from_memoryO (fun _ _ => failDecodeRecord) [0] DecodeOptions.default).freesBeforeReturn = 0 ∧
    (decode_from_memoryO (fun _ _ => failDecodeRecord) [0] DecodeOptions.default).ownershipWrapped = false ∧
    failDecodeRecord.owned_memory_nonnull = true ∧
    (encode_to_memoryO (fun _ _ => failEncodeRecord) img7 EncodeOptions.default).result =
      .error (.EncodingFailed "qoir: failure") ∧
    (encode_to_memoryO (fun _ _ => failEncodeRecord) img7 EncodeOptions.default).freesBeforeReturn = 0 ∧
    (encode_to_memoryO (fun _ _ => failEncodeRecord) img7 EncodeOptions.default).ownershipWrapped = false ∧
    failEncodeRecord.owned_memory_nonnull = true := by decide

/-- C5: the status message of the engine result record is the sole
success/failure discriminant of `decode_from_memory` and
`encode_to_memory`: the result is `Err(DecodingFailed msg)` /
`Err(EncodingFailed msg)` exactly when the record carries `msg`, and
`Ok` exactly when the message is null. -/
theorem status_message_sole_discriminant
    (dengine : List Nat → QDecodeOptions → QDecodeResult) (data : List Nat)
    (dopts : DecodeOptions)
    (eengine : QPixelBuffer → QEncodeOptions → QEncodeResult) (image : Image)
    (eopts : EncodeOptions) :
    (∀ msg, decode_from_memory dengine data dopts = .error (.DecodingFailed msg) ↔
      (dengine data (buildQDecodeOptions dopts)).status_message = some msg) ∧
    ((∃ img, decode_from_memory dengine data dopts = .ok img) ↔
      (dengine data (buildQDecodeOptions dopts)).status_message = none) ∧
    (∀ msg, encode_to_memory eengine image eopts = .error (.EncodingFailed msg) ↔
      (eengine (buildQPixelBuffer image) (buildQEncodeOptions eopts)).status_message = some msg) ∧
    ((∃ buf, encode_to_memory eengine image eopts = .ok buf) ↔
      (eengine (buildQPixelBuffer image) (buildQEncodeOptions eopts)).status_message = none) := by
  cases hd : (dengine data (buildQDecodeOptions dopts)).status_message <;>
    cases he : (eengine (buildQPixelBuffer image) (buildQEncodeOptions eopts)).status_message <;>
    simp [decode_from_memory, decode_from_memoryO, encode_to_memory, encode_to_memoryO, hd, he]

/-- Witness for C5: decoding a malformed stream under the modelled
engine fails with the engine diagnostic, by the discriminant theorem. -/
theorem status_message_sole_discriminant_witness :
    decode_from_memory specEngineDecode [] DecodeOptions.default =
      .error (.DecodingFailed "qoir: invalid data") :=
  ((status_message_sole_discriminant specEngineDecode [] DecodeOptions.default
    specEngineEncode img7 EncodeOptions.default).1 "qoir: invalid data").mpr rfl

/-- C6: the raw-code-to-`PixelFormat` conversion is total and maps
every code outside the eight mapped concrete codes (and 0x00) to
`Invalid`. -/
theorem from_raw_code_total_invalid (c : Nat) (h : c ∉ mappedCodes) :
    PixelFormat.fromRawCode c = .Invalid :=
  fromRawCode_unmapped c h

/-- Witness for C6 at the unmapped code 0x99. -/
theorem from_raw_code_total_invalid_witness :
    PixelFormat.fromRawCode 0x99 = .Invalid :=
  from_raw_code_total_invalid 0x99 (by decide)

/-- C7: with the engine modelled as an ideal lossless codec, encoding
the 2 by 2 image `img7` at lossiness 0 and decoding with the matching
pixel format does not reproduce the original pixel bytes: the decoded
slice is the 16 original bytes followed by 16 overread bytes, because
the pixel slice is sized `width * height * stride`. -/
theorem lossless_roundtrip_fails :
    img7.pixels.length = img7.height * img7.stride_in_bytes ∧
    EncodeOptions.default.lossiness = 0 ∧
    roundTripPixels img7 EncodeOptions.default DecodeOptions.default =
      some (List.range 16 ++ List.replicate 16 0) ∧
    roundTripPixels img7 EncodeOptions.default DecodeOptions.default ≠ some img7.pixels := by
  decide

/-- C8 (as amended): given a successful in-memory encode,
`encode_to_writer` returns `Err(IoError)` when the write fails —
discarding the buffer — and returns the in-memory `EncodedBuffer` only
when the write succeeds. -/
theorem encode_to_writer_amended
    (engine : QPixelBuffer → QEncodeOptions → QEncodeResult) (image : Image)
    (options : EncodeOptions) (writeAll : List Nat → Except Unit Unit) (buf : EncodedBuffer)
    (henc : encode_to_memory engine image options = .ok buf) :
    (writeAll buf.data = .error () → encode_to_writer engine image options writeAll =
      .error .IoError) ∧
    (writeAll buf.data = .ok () → encode_to_writer engine image options writeAll = .ok buf) := by
  unfold encode_to_writer
  rw [henc]
  constructor
  · intro hw; simp [hw]
  · intro hw; simp [hw]

/-- Counterexample to C8 as stated: on a failing writer the in-memory
buffer is not returned; the call yields `Err(IoError)`. -/
theorem encode_to_writer_error_counterexample :
    encode_to_writer specEngineEncode img7 EncodeOptions.default (fun _ => Except.error ()) =
      Except.error Error.IoError := by decide

/-- Witness for C8 (amended) with a succeeding writer. -/
theorem encode_to_writer_amended_witness :
    encode_to_writer specEngineEncode img7 EncodeOptions.default (fun _ => Except.ok ()) =
      Except.ok ⟨[0x22, 2, 2, 8] ++ List.range 16, true⟩ :=
  (encode_to_writer_amended specEngineEncode img7 EncodeOptions.default (fun _ => Except.ok ())
    ⟨[0x22, 2, 2, 8] ++ List.range 16, true⟩ (by decide)).2 rfl

/-- C9: any u8 lossiness value, including values above 7, is neither
rejected with `InvalidParameter` nor clamped: the engine receives it
unchanged through the u8-to-u32 widening. -/
theorem lossiness_forwarded
    (engine : QPixelBuffer → QEncodeOptions → QEncodeResult) (image : Image)
    (options : EncodeOptions) (h : options.lossiness < 256) :
    ((encode_to_memoryO engine image options).engineCalls.map fun c => c.2.lossiness) =
      [options.lossiness] ∧
    (encode_to_memoryO engine image options).result ≠ .error .InvalidParameter := by
  simp only [encode_to_memoryO]
  cases hs : (engine (buildQPixelBuffer image) (buildQEncodeOptions options)).status_message <;>
    simp [hs, buildQEncodeOptions]

/-- Witness for C9 at lossiness 200. -/
theorem lossiness_forwarded_witness :
    ((encode_to_memoryO specEngineEncode img7 opts200).engineCalls.map fun c => c.2.lossiness) =
      [200] ∧
    (encode_to_memoryO specEngineEncode img7 opts200).result ≠ .error .InvalidParameter :=
  lossiness_forwarded specEngineEncode img7 opts200 (by decide)

/-- C10: when the header parse succeeds (null status message) but
reports a pixel-format code outside the mapped set,
`decode_basic_metadata` returns `Ok((width, height, Invalid))` rather
than an error. -/
theorem metadata_ok_invalid_format
    (engine : List Nat → QDecodeConfigResult) (data : List Nat)
    (h1 : (engine data).status_message = none)
    (h2 : (engine data).dst_pixcfg.pixfmt ∉ mappedCodes) :
    decode_basic_metadata engine data =
      .ok ((engine data).dst_pixcfg.width_in_pixels,
        (engine data).dst_pixcfg.height_in_pixels, PixelFormat.Invalid) := by
  have h3 := fromRawCode_unmapped _ h2
  simp [decode_basic_metadata, h1, h3]

/-- Witness for C10 at a successful header parse reporting the
unmapped code 0x77. -/
theorem metadata_ok_invalid_format_witness :
    decode_basic_metadata engine77 [] = .ok (5, 6, PixelFormat.Invalid) :=
  metadata_ok_invalid_format engine77 [] rfl (by decide)

end Qoir
